import Mathlib

set_option maxRecDepth 100000

/-!
Verification of the streamlit video component core
(`src/testcomponent/frontend/src/MyComponent.tsx`).

The component's algorithmic functions are shallowly embedded:
JavaScript numbers that stay integral are modelled as `Nat`/`Int`
(with explicit 32-bit wraparound where the source relies on `<<`),
fractional quantities (times, fps, normalized activity) as `ℚ`,
and the sparse frame→detections record as an association list.
-/

/-- A single detection, as supplied by the host (`Detection` in the source):
normalized box coordinates, a label and a confidence. -/
structure Detection where
  x : ℚ
  y : ℚ
  width : ℚ
  height : ℚ
  label : String
  confidence : ℚ
deriving DecidableEq, Repr

/-- The sparse frame→detections mapping (`Record<number, Array<Detection>>`),
embedded as an association list of (frame index, detection list) entries;
`Object.entries` iterates these entries. -/
abbrev FrameMap := List (Nat × List Detection)

/-- One timeline bucket (`SegmentData` in the source). -/
structure SegmentData where
  normalized : ℚ
  count : Nat
  startFrame : Nat
  endFrame : Nat
  bucketSize : Nat
deriving DecidableEq, Repr

/-- One step of the `Object.entries(detections).forEach` accumulation in
`getDetectionDensity`: compute `bucketIndex = floor(frameNum / bucketSize)`
and, if it is in range, add the entry's detection count to that bucket. -/
def bucketStep (bucketSize numBuckets : Nat) (acc : List Nat)
    (e : Nat × List Detection) : List Nat :=
  let bucketIndex := e.1 / bucketSize
  if bucketIndex < numBuckets then
    acc.set bucketIndex (acc.getD bucketIndex 0 + e.2.length)
  else acc

/-- The `density` / `detectionCounts` arrays of `getDetectionDensity`
(the source fills two arrays with identical updates; they hold the same
numbers, so a single accumulation models both). -/
def bucketCounts (bucketSize numBuckets : Nat) (detections : FrameMap) : List Nat :=
  detections.foldl (bucketStep bucketSize numBuckets) (List.replicate numBuckets 0)

/-- The bucket size of `getDetectionDensity`:
`bucketSize = Math.max(1, Math.floor(totalFrames / 200))`. -/
def densityBucketSize (totalFrames : Nat) : Nat := max 1 (totalFrames / 200)

/-- The bucket count of `getDetectionDensity`:
`numBuckets = Math.ceil(totalFrames / bucketSize)` (the ceiling written as
Nat division). -/
def densityNumBuckets (totalFrames : Nat) : Nat :=
  (totalFrames + densityBucketSize totalFrames - 1) / densityBucketSize totalFrames

/-- Embeds `getDetectionDensity` from the source: empty for `totalFrames === 0`,
otherwise `bucketSize = max(1, floor(totalFrames/200))`,
`numBuckets = ceil(totalFrames/bucketSize)`, per-bucket detection counts,
`maxDensity = Math.max(...density, 1)`, and one `SegmentData` per bucket
(the source maps over `normalizedDensity` with the index; `List.enum`
supplies the same index). -/
def getDetectionDensity (totalFrames : Nat) (detections : FrameMap) :
    List SegmentData :=
  if totalFrames = 0 then [] else
  let bucketSize := densityBucketSize totalFrames
  let numBuckets := densityNumBuckets totalFrames
  let density := bucketCounts bucketSize numBuckets detections
  let maxDensity := max (density.foldr max 0) 1
  density.enum.map (fun p =>
    { normalized := (p.2 : ℚ) / (maxDensity : ℚ)
      count := p.2
      startFrame := p.1 * bucketSize
      endFrame := min ((p.1 + 1) * bucketSize - 1) (totalFrames - 1)
      bucketSize := bucketSize })

/-- Embeds `detections[currentFrame] || []`: the current frame's detection list
(association-list lookup; an absent frame yields the empty list). -/
def currentFrameDetections (detections : FrameMap) (currentFrame : Nat) :
    List Detection :=
  ((detections.lookup currentFrame).getD [])

/-- The `distribution[label] = (distribution[label] || 0) + 1` update of
`getClassDistribution`: bump the label's count, or append a fresh entry
(JS objects keep string keys in insertion order). -/
def addLabel (dist : List (String × Nat)) (l : String) : List (String × Nat) :=
  match dist with
  | [] => [(l, 1)]
  | (k, n) :: rest => if k = l then (k, n + 1) :: rest else (k, n) :: addLabel rest l

/-- Embeds `getClassDistribution` from the source: count occurrences per label in
the current frame's detection list, then `.sort((a, b) => b[1] - a[1])`
(a stable sort putting larger counts first). -/
def getClassDistribution (detections : FrameMap) (currentFrame : Nat) :
    List (String × Nat) :=
  let currentDetections := currentFrameDetections detections currentFrame
  let distribution := currentDetections.foldl (fun acc d => addLabel acc d.label) []
  distribution.mergeSort (fun a b => b.2 ≤ a.2)

/-- JavaScript `ToInt32`: reduce an integer to the signed 32-bit range. -/
def toInt32 (x : ℤ) : ℤ :=
  let m := x % 4294967296
  if m < 2147483648 then m else m - 4294967296

/-- JavaScript `hash << 5`: coerce to int32, shift within 32 bits,
read back as a signed 32-bit value. -/
def jsShl5 (h : ℤ) : ℤ := toInt32 (toInt32 h * 32)

/-- The hash loop of `getColorForLabel`:
`hash = label.charCodeAt(i) + ((hash << 5) - hash)`, accumulated left to
right from 0 (character codes taken as the label's code points). -/
def labelHash (label : String) : ℤ :=
  label.data.foldl (fun h c => (c.toNat : ℤ) + (jsShl5 h - h)) 0

/-- Embeds `getColorForLabel` from the source: hue is `Math.abs(hash % 360)`
(JS `%` truncates toward zero, hence `Int.tmod`), saturation and lightness
are fixed. -/
def getColorForLabel (label : String) : String :=
  let hue := (Int.tmod (labelHash label) 360).natAbs
  "hsl(" ++ toString hue ++ ", 85%, 55%)"

/-- Modelled from the spec: the classic 31-multiplier rolling string hash
(`hash = 31*hash + charCode` over exact integers) that §4.2 names as the
algorithm `getColorForLabel` computes; used to compare the source's hash
against the spec's description. -/
def specClassicHash31 (label : String) : ℤ :=
  label.data.foldl (fun h c => 31 * h + (c.toNat : ℤ)) 0

/-- Embeds `handleTimeUpdate` from the source, as the list of
`setStateValue(name, value)` calls it makes: nothing when the video ref is
absent, otherwise the current timestamp followed by
`Math.floor(video.currentTime * fps)` as the current frame. The video ref
is modelled by its `currentTime`. -/
def handleTimeUpdate (video : Option ℚ) (fps : ℚ) : List (String × ℚ) :=
  match video with
  | none => []
  | some t => [("current_timestamp", t), ("current_frame", ((⌊t * fps⌋ : ℤ) : ℚ))]

/-- One delivery of props to the component, as far as the `seek_to` effect
is concerned: the `seek_to` prop (absent or a time) and whether
`videoRef.current` is non-null when the effect body runs. -/
structure SeekDelivery where
  seek_to : Option ℚ
  videoPresent : Bool
deriving DecidableEq, Repr

/-- The `useEffect(..., [seek_to])` at lines 83-87, run over a sequence of
prop deliveries: React runs the effect body after the first render and
after any render whose `seek_to` differs from the previous one
(dependency comparison); the body assigns `videoRef.current.currentTime =
seek_to` when `seek_to` is truthy (a nonzero number) and the video ref is
present. `prev` is the previously seen `seek_to` (none before the first
render); the result lists the values assigned to the media position, in
order. -/
def appliedSeeks (prev : Option (Option ℚ)) : List SeekDelivery → List ℚ
  | [] => []
  | d :: ds =>
    let fires : Bool := match prev with
      | none => true
      | some p => decide (p ≠ d.seek_to)
    let rest := appliedSeeks (some d.seek_to) ds
    match d.seek_to with
    | none => rest
    | some v => if fires ∧ v ≠ 0 ∧ d.videoPresent then v :: rest else rest

theorem length_bucketStep (b n : Nat) (acc : List Nat) (e : Nat × List Detection) :
    (bucketStep b n acc e).length = acc.length := by
  unfold bucketStep
  dsimp only
  split <;> simp

theorem length_foldl_bucketStep (b n : Nat) (fm : FrameMap) (acc : List Nat) :
    (fm.foldl (bucketStep b n) acc).length = acc.length := by
  induction fm generalizing acc with
  | nil => rfl
  | cons e fm ih => rw [List.foldl_cons, ih, length_bucketStep]

theorem length_bucketCounts (b n : Nat) (fm : FrameMap) :
    (bucketCounts b n fm).length = n := by
  rw [bucketCounts, length_foldl_bucketStep, List.length_replicate]

theorem sum_set_getD_add (l : List Nat) (i k : Nat) (h : i < l.length) :
    (l.set i (l.getD i 0 + k)).sum = l.sum + k := by
  induction l generalizing i with
  | nil => simp at h
  | cons a l ih =>
    cases i with
    | zero =>
      simp only [List.set_cons_zero, List.getD_cons_zero, List.sum_cons]
      omega
    | succ i =>
      have h9 : i < l.length := by simpa using h
      simp only [List.set_cons_succ, List.getD_cons_succ, List.sum_cons, ih i h9]
      omega

theorem sum_bucketStep (b n : Nat) (acc : List Nat) (e : Nat × List Detection)
    (h : acc.length = n) :
    (bucketStep b n acc e).sum
      = acc.sum + (if e.1 / b < n then e.2.length else 0) := by
  by_cases hlt : e.1 / b < n
  · rw [if_pos hlt]
    unfold bucketStep
    dsimp only
    rw [if_pos hlt]
    exact sum_set_getD_add acc (e.1 / b) e.2.length (by omega)
  · rw [if_neg hlt, Nat.add_zero]
    unfold bucketStep
    dsimp only
    rw [if_neg hlt]

theorem sum_foldl_bucketStep (b n : Nat) (fm : FrameMap) (acc : List Nat)
    (h : acc.length = n) :
    (fm.foldl (bucketStep b n) acc).sum
      = acc.sum + ((fm.filter (fun e => e.1 / b < n)).map (fun e => e.2.length)).sum := by
  induction fm generalizing acc with
  | nil => simp
  | cons e fm ih =>
    rw [List.foldl_cons, ih _ (by rw [length_bucketStep, h]),
      sum_bucketStep b n acc e h]
    by_cases he : e.1 / b < n
    · simp [List.filter_cons, he]
      omega
    · simp [List.filter_cons, he]

theorem sum_bucketCounts (b n : Nat) (fm : FrameMap) :
    (bucketCounts b n fm).sum
      = ((fm.filter (fun e => e.1 / b < n)).map (fun e => e.2.length)).sum := by
  rw [bucketCounts, sum_foldl_bucketStep b n fm _ (List.length_replicate n 0)]
  simp

theorem length_getDetectionDensity (T : Nat) (fm : FrameMap) (hT : T ≠ 0) :
    (getDetectionDensity T fm).length = densityNumBuckets T := by
  rw [getDetectionDensity, if_neg hT]
  simp [length_bucketCounts]

theorem map_count_getDetectionDensity (T : Nat) (fm : FrameMap) (hT : T ≠ 0) :
    (getDetectionDensity T fm).map SegmentData.count
      = bucketCounts (densityBucketSize T) (densityNumBuckets T) fm := by
  rw [getDetectionDensity, if_neg hT]
  dsimp only
  rw [List.map_map]
  exact List.enum_map_snd _

theorem getElem?_getDetectionDensity (T : Nat) (fm : FrameMap) (i : Nat) (hT : T ≠ 0)
    (hi : i < densityNumBuckets T) :
    (getDetectionDensity T fm)[i]? = some
      { normalized := ((bucketCounts (densityBucketSize T) (densityNumBuckets T) fm).getD i 0 : ℚ)
          / ((max ((bucketCounts (densityBucketSize T) (densityNumBuckets T) fm).foldr max 0) 1 : ℕ) : ℚ)
        count := (bucketCounts (densityBucketSize T) (densityNumBuckets T) fm).getD i 0
        startFrame := i * densityBucketSize T
        endFrame := min ((i + 1) * densityBucketSize T - 1) (T - 1)
        bucketSize := densityBucketSize T } := by
  have hlen : i < (bucketCounts (densityBucketSize T) (densityNumBuckets T) fm).length := by
    rw [length_bucketCounts]
    exact hi
  rw [getDetectionDensity, if_neg hT]
  dsimp only
  rw [List.getElem?_map, List.getElem?_enum, List.getElem?_eq_getElem hlen]
  rw [List.getD_eq_getElem _ _ hlen]
  rfl

theorem map_normalized_getDetectionDensity (T : Nat) (fm : FrameMap) (hT : T ≠ 0) :
    (getDetectionDensity T fm).map SegmentData.normalized
      = (bucketCounts (densityBucketSize T) (densityNumBuckets T) fm).map
          (fun c : ℕ => (Nat.cast c : ℚ) /
            (Nat.cast (max ((bucketCounts (densityBucketSize T) (densityNumBuckets T) fm).foldr max 0) 1) : ℚ)) := by
  apply List.ext_getElem?
  intro i
  rw [List.getElem?_map, List.getElem?_map]
  by_cases hi : i < densityNumBuckets T
  · have hlen : i < (bucketCounts (densityBucketSize T) (densityNumBuckets T) fm).length := by
      rw [length_bucketCounts]
      exact hi
    rw [getElem?_getDetectionDensity T fm i hT hi, List.getElem?_eq_getElem hlen,
      List.getD_eq_getElem _ _ hlen]
    rfl
  · have h1 : (getDetectionDensity T fm).length ≤ i := by
      rw [length_getDetectionDensity T fm hT]
      omega
    have h2 : (bucketCounts (densityBucketSize T) (densityNumBuckets T) fm).length ≤ i := by
      rw [length_bucketCounts]
      omega
    rw [List.getElem?_eq_none h1, List.getElem?_eq_none h2]
    rfl

theorem get_getDetectionDensity (T : Nat) (fm : FrameMap) (i : Nat) (hT : T ≠ 0)
    (h : i < (getDetectionDensity T fm).length) :
    (getDetectionDensity T fm).get ⟨i, h⟩ =
      { normalized := ((bucketCounts (densityBucketSize T) (densityNumBuckets T) fm).getD i 0 : ℚ)
          / ((max ((bucketCounts (densityBucketSize T) (densityNumBuckets T) fm).foldr max 0) 1 : ℕ) : ℚ)
        count := (bucketCounts (densityBucketSize T) (densityNumBuckets T) fm).getD i 0
        startFrame := i * densityBucketSize T
        endFrame := min ((i + 1) * densityBucketSize T - 1) (T - 1)
        bucketSize := densityBucketSize T } := by
  have hi : i < densityNumBuckets T := by
    rw [length_getDetectionDensity T fm hT] at h
    exact h
  have h8 := getElem?_getDetectionDensity T fm i hT hi
  have h7 : (getDetectionDensity T fm)[i]? = some ((getDetectionDensity T fm)[i]) :=
    List.getElem?_eq_getElem h
  rw [List.get_eq_getElem]
  exact (Option.some.inj (h7.symm.trans h8))

theorem one_le_densityBucketSize (T : Nat) : 1 ≤ densityBucketSize T :=
  le_max_left 1 _

theorem le_bucketSize_bound (T : Nat) : T ≤ 200 * densityBucketSize T + 199 := by
  unfold densityBucketSize
  have h1 := Nat.div_add_mod T 200
  have h2 : T % 200 < 200 := Nat.mod_lt T (by norm_num)
  have h3 : T / 200 ≤ max 1 (T / 200) := le_max_right 1 _
  omega

theorem densityNumBuckets_le_399 (T : Nat) : densityNumBuckets T ≤ 399 := by
  have hb := one_le_densityBucketSize T
  have hT := le_bucketSize_bound T
  have hkey : T + densityBucketSize T - 1 < 400 * densityBucketSize T := by omega
  have h4 := (Nat.div_lt_iff_lt_mul (k := densityBucketSize T)
    (x := T + densityBucketSize T - 1) (y := 400) (by omega)).mpr hkey
  unfold densityNumBuckets
  omega

theorem densityNumBuckets_eq (T : Nat) (hT : 0 < T) :
    densityNumBuckets T = (T - 1) / densityBucketSize T + 1 := by
  have hb := one_le_densityBucketSize T
  unfold densityNumBuckets
  have h1 : T + densityBucketSize T - 1 = (T - 1) + densityBucketSize T := by omega
  rw [h1, Nat.add_div_right _ (by omega)]

theorem lt_succ_div_mul (f b : Nat) (hb : 0 < b) : f < (f / b + 1) * b := by
  have h1 := Nat.div_add_mod f b
  have h2 : f % b < b := Nat.mod_lt f hb
  have h3 : (f / b + 1) * b = f / b * b + b := Nat.succ_mul _ _
  have h4 : b * (f / b) = f / b * b := Nat.mul_comm _ _
  omega

theorem pred_numBuckets_mul_le (T : Nat) (hT : 0 < T) :
    (densityNumBuckets T - 1) * densityBucketSize T ≤ T - 1 := by
  rw [densityNumBuckets_eq T hT]
  simp only [Nat.add_sub_cancel]
  exact Nat.div_mul_le_self _ _

theorem le_numBuckets_mul (T : Nat) : T ≤ densityNumBuckets T * densityBucketSize T := by
  rcases Nat.eq_zero_or_pos T with h0 | hT
  · simp [h0]
  · rw [densityNumBuckets_eq T hT]
    have h1 := lt_succ_div_mul (T - 1) (densityBucketSize T)
      (one_le_densityBucketSize T)
    omega

theorem div_lt_numBuckets (T f : Nat) (hf : f < T) :
    f / densityBucketSize T < densityNumBuckets T := by
  have hT : 0 < T := by omega
  rw [densityNumBuckets_eq T hT]
  have h1 : f / densityBucketSize T ≤ (T - 1) / densityBucketSize T :=
    Nat.div_le_div_right (by omega)
  omega

theorem bucket_start_le_end (T i : Nat) (hT : 0 < T) (hi : i < densityNumBuckets T) :
    i * densityBucketSize T ≤ min ((i + 1) * densityBucketSize T - 1) (T - 1) := by
  have hb := one_le_densityBucketSize T
  have h1 : i * densityBucketSize T ≤ (densityNumBuckets T - 1) * densityBucketSize T :=
    Nat.mul_le_mul_right _ (by omega)
  have h2 := pred_numBuckets_mul_le T hT
  have h3 : (i + 1) * densityBucketSize T = i * densityBucketSize T + densityBucketSize T :=
    Nat.succ_mul i _
  apply le_min <;> omega

theorem bucket_end_eq_of_not_last (T i : Nat) (hT : 0 < T)
    (hi : i + 1 < densityNumBuckets T) :
    min ((i + 1) * densityBucketSize T - 1) (T - 1)
      = (i + 1) * densityBucketSize T - 1 := by
  have hb := one_le_densityBucketSize T
  have h1 : (i + 1) * densityBucketSize T ≤ (densityNumBuckets T - 1) * densityBucketSize T :=
    Nat.mul_le_mul_right _ (by omega)
  have h2 := pred_numBuckets_mul_le T hT
  omega

theorem startFrame_getDetectionDensity (T : Nat) (fm : FrameMap) (i : Nat)
    (hT : T ≠ 0) (h : i < (getDetectionDensity T fm).length) :
    ((getDetectionDensity T fm).get ⟨i, h⟩).startFrame = i * densityBucketSize T := by
  rw [get_getDetectionDensity T fm i hT h]

theorem endFrame_getDetectionDensity (T : Nat) (fm : FrameMap) (i : Nat)
    (hT : T ≠ 0) (h : i < (getDetectionDensity T fm).length) :
    ((getDetectionDensity T fm).get ⟨i, h⟩).endFrame
      = min ((i + 1) * densityBucketSize T - 1) (T - 1) := by
  rw [get_getDetectionDensity T fm i hT h]

/-- A concrete detection used in counterexamples and scenario checks. -/
def sampleDetection : Detection :=
  { x := 0, y := 0, width := 0, height := 0, label := "object", confidence := 1 }

/-- C1 counterexample: at `totalFrames = 201` the timeline has 201 bars,
so `getDetectionDensity` is not capped at 200 elements. -/
theorem spec_c1_cex : ¬ ((getDetectionDensity 201 []).length ≤ 200) := by decide

/-- C1 (amended): for every `totalFrames` and `FrameMap` the sequence
returned by `getDetectionDensity` has at most 399 elements (the bound 200
fails for `totalFrames` strictly between 200 and 400, where
`bucketSize = 1` but up to 399 buckets are produced; 399 is attained at
`totalFrames = 399`). -/
theorem spec_c1 (totalFrames : Nat) (detections : FrameMap) :
    (getDetectionDensity totalFrames detections).length ≤ 399 := by
  rcases Nat.eq_zero_or_pos totalFrames with h0 | hT
  · subst h0
    rw [getDetectionDensity, if_pos rfl]
    simp
  · rw [length_getDetectionDensity _ _ (by omega)]
    exact densityNumBuckets_le_399 _

/-- C2 counterexample: with `totalFrames = 401` (so `bucketSize = 2`,
`numBuckets = 201`) a detection at frame 401 has bucket index
`floor(401/2) = 200 < 201` and is counted, although `401 ≥ totalFrames`:
the buckets sum to 1 while the entries below `totalFrames` sum to 0. -/
theorem spec_c2_cex :
    ((getDetectionDensity 401 [(401, [sampleDetection])]).map SegmentData.count).sum = 1 ∧
    ((([((401 : Nat), [sampleDetection])] : FrameMap).filter (fun e => e.1 < 401)).map
        (fun e => e.2.length)).sum = 0 := by
  constructor <;> decide

/-- C2 (amended): `getDetectionDensity` drops exactly the entries whose
bucket index `floor(frame/bucketSize)` is at or beyond `numBuckets`: the
sum of `rawCount` over all buckets equals the sum of detection-list
lengths over the entries with frame index `< numBuckets * bucketSize`
(which exceeds `totalFrames` whenever `bucketSize` does not divide it, so
some entries at or beyond `totalFrames` are still counted). -/
theorem spec_c2 (totalFrames : Nat) (detections : FrameMap) (hT : 0 < totalFrames) :
    ((getDetectionDensity totalFrames detections).map SegmentData.count).sum
      = ((detections.filter (fun e =>
            e.1 < densityNumBuckets totalFrames * densityBucketSize totalFrames)).map
          (fun e => e.2.length)).sum := by
  rw [map_count_getDetectionDensity _ _ (by omega), sum_bucketCounts]
  congr 1
  congr 1
  apply List.filter_congr
  intro e _
  rw [decide_eq_decide]
  exact Nat.div_lt_iff_lt_mul (by have := one_le_densityBucketSize totalFrames; omega)

theorem spec_c2_witness :
    0 < 5 ∧
    ((getDetectionDensity 5 [(2, [sampleDetection])]).map SegmentData.count).sum
      = ((([((2 : Nat), [sampleDetection])] : FrameMap).filter (fun e =>
            e.1 < densityNumBuckets 5 * densityBucketSize 5)).map
          (fun e => e.2.length)).sum :=
  ⟨by norm_num, spec_c2 5 [(2, [sampleDetection])] (by norm_num)⟩

/-- C5: `getDetectionDensity` on `totalFrames = 0` is empty; otherwise it
has `ceil(totalFrames / bucketSize)` buckets with
`bucketSize = max(1, floor(totalFrames/200))`, bucket `i` spans
`startFrame = i * bucketSize` to
`endFrame = min((i+1)*bucketSize - 1, totalFrames - 1)` with
`startFrame ≤ endFrame`, consecutive buckets are contiguous, and every
frame below `totalFrames` lies in exactly one bucket. -/
theorem spec_c5 (T : Nat) (fm : FrameMap) :
    (T = 0 → getDetectionDensity T fm = []) ∧
    (0 < T →
      (getDetectionDensity T fm).length = densityNumBuckets T ∧
      (∀ i, ∀ h : i < (getDetectionDensity T fm).length,
        ((getDetectionDensity T fm).get ⟨i, h⟩).startFrame = i * densityBucketSize T ∧
        ((getDetectionDensity T fm).get ⟨i, h⟩).endFrame
          = min ((i + 1) * densityBucketSize T - 1) (T - 1) ∧
        ((getDetectionDensity T fm).get ⟨i, h⟩).startFrame
          ≤ ((getDetectionDensity T fm).get ⟨i, h⟩).endFrame) ∧
      (∀ i, ∀ h1 : i + 1 < (getDetectionDensity T fm).length,
        ((getDetectionDensity T fm).get ⟨i + 1, h1⟩).startFrame
          = ((getDetectionDensity T fm).get ⟨i, Nat.lt_of_succ_lt h1⟩).endFrame + 1) ∧
      (∀ f, f < T → ∃! i, ∃ h : i < (getDetectionDensity T fm).length,
        ((getDetectionDensity T fm).get ⟨i, h⟩).startFrame ≤ f ∧
        f ≤ ((getDetectionDensity T fm).get ⟨i, h⟩).endFrame)) := by
  constructor
  · intro h0
    rw [getDetectionDensity, if_pos h0]
  · intro hT
    have hT9 : T ≠ 0 := by omega
    have hb := one_le_densityBucketSize T
    refine ⟨length_getDetectionDensity T fm hT9, ?_, ?_, ?_⟩
    · intro i h
      have hi : i < densityNumBuckets T := by
        rw [length_getDetectionDensity T fm hT9] at h
        exact h
      refine ⟨startFrame_getDetectionDensity T fm i hT9 h,
        endFrame_getDetectionDensity T fm i hT9 h, ?_⟩
      rw [startFrame_getDetectionDensity T fm i hT9 h,
        endFrame_getDetectionDensity T fm i hT9 h]
      exact bucket_start_le_end T i hT hi
    · intro i h1
      have hi : i + 1 < densityNumBuckets T := by
        rw [length_getDetectionDensity T fm hT9] at h1
        exact h1
      rw [startFrame_getDetectionDensity T fm (i + 1) hT9 h1,
        endFrame_getDetectionDensity T fm i hT9 (Nat.lt_of_succ_lt h1),
        bucket_end_eq_of_not_last T i hT hi]
      have h3 : (i + 1) * densityBucketSize T
          = i * densityBucketSize T + densityBucketSize T := Nat.succ_mul i _
      omega
    · intro f hf
      have hdiv : f / densityBucketSize T < densityNumBuckets T :=
        div_lt_numBuckets T f hf
      have hlen : f / densityBucketSize T < (getDetectionDensity T fm).length := by
        rw [length_getDetectionDensity T fm hT9]
        exact hdiv
      refine ⟨f / densityBucketSize T, ⟨hlen, ?_, ?_⟩, ?_⟩
      · rw [startFrame_getDetectionDensity T fm _ hT9 hlen]
        exact Nat.div_mul_le_self f _
      · rw [endFrame_getDetectionDensity T fm _ hT9 hlen]
        have h4 := lt_succ_div_mul f (densityBucketSize T) (by omega)
        apply le_min <;> omega
      · intro j hj
        obtain ⟨hjb, hj1, hj2⟩ := hj
        rw [startFrame_getDetectionDensity T fm j hT9 hjb] at hj1
        rw [endFrame_getDetectionDensity T fm j hT9 hjb] at hj2
        have h3 : (j + 1) * densityBucketSize T
            = j * densityBucketSize T + densityBucketSize T := Nat.succ_mul j _
        have hlt : f < (j + 1) * densityBucketSize T := by omega
        exact (Nat.div_eq_of_lt_le hj1 hlt).symm

theorem spec_c5_witness :
    getDetectionDensity 0 [] = [] ∧
    (0 < 5 ∧ (getDetectionDensity 5 []).length = densityNumBuckets 5) :=
  ⟨(spec_c5 0 []).1 rfl, by norm_num, ((spec_c5 5 []).2 (by norm_num)).1⟩

/-- The maximum `rawCount` across the buckets of `getDetectionDensity`
(zero when there are no buckets). -/
def maxBucketCount (T : Nat) (fm : FrameMap) : Nat :=
  ((getDetectionDensity T fm).map SegmentData.count).foldr max 0

theorem maxBucketCount_eq (T : Nat) (fm : FrameMap) (hT : T ≠ 0) :
    maxBucketCount T fm
      = (bucketCounts (densityBucketSize T) (densityNumBuckets T) fm).foldr max 0 := by
  unfold maxBucketCount
  rw [map_count_getDetectionDensity T fm hT]

theorem le_foldr_max (l : List Nat) (a : Nat) (h : a ∈ l) : a ≤ l.foldr max 0 := by
  induction l with
  | nil => simp at h
  | cons x l ih =>
    rcases List.mem_cons.mp h with h1 | h2
    · subst h1
      exact le_max_left _ _
    · exact le_trans (ih h2) (le_max_right _ _)

/-- The frame map of the C6 scenario: a single detection at frame 500. -/
def scenarioFrameMap : FrameMap := [(500, [sampleDetection])]

/-- C6: every bucket's `normalizedActivity` equals its count divided by
`max(maximum count across buckets, 1)` and lies in `[0, 1]` (the floor of
1 prevents division by zero); in the scenario `totalFrames = 1000` with
one detection at frame 500, `bucketSize = 5`, bucket 100 has count 1 and
normalized activity 1, and all other buckets have count 0 and normalized
activity 0. -/
theorem spec_c6 :
    (∀ (T : Nat) (fm : FrameMap) (s : SegmentData), s ∈ getDetectionDensity T fm →
      s.normalized = (s.count : ℚ) / ((max (maxBucketCount T fm) 1 : ℕ) : ℚ) ∧
      0 ≤ s.normalized ∧ s.normalized ≤ 1) ∧
    ((getDetectionDensity 1000 scenarioFrameMap).map SegmentData.count
        = (List.replicate 200 0).set 100 1 ∧
      (getDetectionDensity 1000 scenarioFrameMap).map SegmentData.normalized
        = ((List.replicate 200 0).set 100 1).map (fun c : ℕ => (Nat.cast c : ℚ)) ∧
      densityBucketSize 1000 = 5) := by
  constructor
  · intro T fm s hs
    have hT : T ≠ 0 := by
      intro h0
      rw [h0] at hs
      simp [getDetectionDensity] at hs
    rw [getDetectionDensity, if_neg hT] at hs
    dsimp only at hs
    obtain ⟨p, hp, rfl⟩ := List.mem_map.mp hs
    have hmem : p.2 ∈ bucketCounts (densityBucketSize T) (densityNumBuckets T) fm :=
      List.snd_mem_of_mem_enumFrom hp
    have hle : p.2 ≤ max ((bucketCounts (densityBucketSize T) (densityNumBuckets T) fm).foldr max 0) 1 :=
      le_trans (le_foldr_max _ _ hmem) (le_max_left _ _)
    refine ⟨?_, ?_, ?_⟩
    · rw [maxBucketCount_eq T fm hT]
    · exact div_nonneg (Nat.cast_nonneg _) (Nat.cast_nonneg _)
    · exact div_le_one_of_le₀ (Nat.cast_le.mpr hle) (Nat.cast_nonneg _)
  · refine ⟨by decide, ?_, by decide⟩
    rw [map_normalized_getDetectionDensity 1000 scenarioFrameMap (by norm_num)]
    have h1 : bucketCounts (densityBucketSize 1000) (densityNumBuckets 1000) scenarioFrameMap
        = (List.replicate 200 0).set 100 1 := by decide
    rw [h1]
    have h2 : max (((List.replicate 200 (0 : ℕ)).set 100 1).foldr max 0) 1 = 1 := by decide
    rw [h2]
    simp

theorem spec_c6_witness :
    ((getDetectionDensity 1 []).get ⟨0, by decide⟩).normalized
      = (((getDetectionDensity 1 []).get ⟨0, by decide⟩).count : ℚ)
        / ((max (maxBucketCount 1 []) 1 : ℕ) : ℚ) ∧
    0 ≤ ((getDetectionDensity 1 []).get ⟨0, by decide⟩).normalized ∧
    ((getDetectionDensity 1 []).get ⟨0, by decide⟩).normalized ≤ 1 :=
  spec_c6.1 1 [] _ (List.get_mem _ _ _)

/-- C3 counterexample: with `fps = 0` and the video present, the
time-update handler still emits a `current_frame` update (value 0); it is
not deferred. -/
theorem spec_c3_cex :
    handleTimeUpdate (some (5 / 2)) 0 = [("current_timestamp", 5 / 2), ("current_frame", 0)] ∧
    ¬ (∀ e ∈ handleTimeUpdate (some (5 / 2)) (0 : ℚ), e.1 ≠ "current_frame") := by
  constructor
  · norm_num [handleTimeUpdate]
  · intro h
    exact h ("current_frame", 0) (by norm_num [handleTimeUpdate]) rfl

/-- C3 (amended): the time-update handler has no fps guard: whenever the
video element is present it emits both state updates; with `fps = 0` the
emitted `current_frame` is the finite value `floor(t * 0) = 0` (no
`NaN`/`Infinity` arises for finite inputs, but emission is not deferred). -/
theorem spec_c3 (t : ℚ) :
    handleTimeUpdate (some t) 0
      = [("current_timestamp", t), ("current_frame", 0)] := by
  simp [handleTimeUpdate]

/-- C4: for `fps > 0` and `timeSeconds ≥ 0` the handler reports
`current_frame = floor(timeSeconds * fps)`, a non-negative integer. -/
theorem spec_c4 (t fps : ℚ) (hfps : 0 < fps) (ht : 0 ≤ t) :
    handleTimeUpdate (some t) fps
      = [("current_timestamp", t), ("current_frame", ((⌊t * fps⌋ : ℤ) : ℚ))] ∧
    0 ≤ ⌊t * fps⌋ :=
  ⟨rfl, Int.floor_nonneg.mpr (mul_nonneg ht hfps.le)⟩

theorem spec_c4_witness :
    0 < (30 : ℚ) ∧ 0 ≤ (5 / 2 : ℚ) ∧
    handleTimeUpdate (some (5 / 2)) 30
      = [("current_timestamp", (5 / 2 : ℚ)), ("current_frame", 75)] := by
  have h30 : 0 < (30 : ℚ) := by norm_num
  have h52 : 0 ≤ (5 / 2 : ℚ) := by norm_num
  have h := spec_c4 (5 / 2) 30 h30 h52
  refine ⟨h30, h52, ?_⟩
  rw [h.1]
  norm_num

theorem toInt32_emod (x : ℤ) : toInt32 x % 4294967296 = x % 4294967296 := by
  unfold toInt32
  dsimp only
  split
  · exact Int.emod_emod_of_dvd x dvd_rfl
  · rw [Int.emod_sub_cancel]
    exact Int.emod_emod_of_dvd x dvd_rfl

theorem jsShl5_emod (h : ℤ) : jsShl5 h % 4294967296 = (h * 32) % 4294967296 := by
  unfold jsShl5
  rw [toInt32_emod, Int.mul_emod, toInt32_emod, ← Int.mul_emod]

theorem hash_fold_congr (cs : List Char) (h1 h2 : ℤ)
    (hmod : h1 % 4294967296 = h2 % 4294967296) :
    (cs.foldl (fun h c => (c.toNat : ℤ) + (jsShl5 h - h)) h1) % 4294967296
      = (cs.foldl (fun h c => 31 * h + (c.toNat : ℤ)) h2) % 4294967296 := by
  induction cs generalizing h1 h2 with
  | nil => exact hmod
  | cons c cs ih =>
    rw [List.foldl_cons, List.foldl_cons]
    apply ih
    have hstep : ((c.toNat : ℤ) + (jsShl5 h1 - h1)) % 4294967296
        = ((c.toNat : ℤ) + (h1 * 32 - h1)) % 4294967296 := by
      rw [Int.add_emod, Int.sub_emod, jsShl5_emod, ← Int.sub_emod, ← Int.add_emod]
    rw [hstep]
    have hlin : (c.toNat : ℤ) + (h1 * 32 - h1) = 31 * h1 + (c.toNat : ℤ) := by ring
    rw [hlin, Int.add_emod, Int.mul_emod, hmod, ← Int.mul_emod, ← Int.add_emod]

theorem labelHash_emod_eq (label : String) :
    labelHash label % 4294967296 = specClassicHash31 label % 4294967296 :=
  hash_fold_congr label.data 0 0 rfl

theorem natAbs_tmod_coe (h : ℤ) (n : Nat) :
    (Int.tmod h (n : ℤ)).natAbs = h.natAbs % n := by
  cases h with
  | ofNat m =>
    simp only [Int.tmod]
    rfl
  | negSucc m =>
    simp only [Int.tmod, Int.natAbs_neg, Int.natAbs_negSucc]
    rfl

/-- C7: `getColorForLabel` is a pure function of the label computing the
31-multiplier rolling hash (exactly the classic hash up to the 32-bit
wraparound the source's `<<` performs, as the congruence mod `2^32`
states), takes the absolute value of the hash mod 360 as a hue in
`[0, 360)`, renders it with fixed saturation 85% and lightness 55%, and
maps the empty label to the stable default `hsl(0, 85%, 55%)`. -/
theorem spec_c7 (label : String) :
    getColorForLabel label
      = "hsl(" ++ toString ((labelHash label).natAbs % 360) ++ ", 85%, 55%)" ∧
    labelHash label % 4294967296 = specClassicHash31 label % 4294967296 ∧
    (Int.tmod (labelHash label) 360).natAbs < 360 ∧
    getColorForLabel "" = "hsl(0, 85%, 55%)" := by
  refine ⟨?_, labelHash_emod_eq label, ?_, by decide⟩
  · unfold getColorForLabel
    dsimp only
    rw [show ((360 : ℤ)) = ((360 : ℕ) : ℤ) from rfl, natAbs_tmod_coe]
  · rw [show ((360 : ℤ)) = ((360 : ℕ) : ℤ) from rfl, natAbs_tmod_coe]
    exact Nat.mod_lt _ (by norm_num)

theorem sum_addLabel (dist : List (String × Nat)) (l : String) :
    ((addLabel dist l).map Prod.snd).sum = (dist.map Prod.snd).sum + 1 := by
  induction dist with
  | nil => rfl
  | cons e rest ih =>
    obtain ⟨k, n⟩ := e
    rw [addLabel]
    by_cases hk : k = l
    · rw [if_pos hk]
      simp
      omega
    · rw [if_neg hk]
      simp only [List.map_cons, List.sum_cons, ih]
      omega

theorem sum_foldl_addLabel (dets : List Detection) (acc : List (String × Nat)) :
    ((dets.foldl (fun a d => addLabel a d.label) acc).map Prod.snd).sum
      = (acc.map Prod.snd).sum + dets.length := by
  induction dets generalizing acc with
  | nil => simp
  | cons d dets ih =>
    rw [List.foldl_cons, ih, sum_addLabel]
    simp only [List.length_cons]
    omega

/-- C8: for every frame map and current frame, `getClassDistribution`
returns label/count pairs sorted in descending order of count, and the
counts sum to the number of detections in the current frame's list. -/
theorem spec_c8 (detections : FrameMap) (currentFrame : Nat) :
    List.Sorted (fun a b : String × Nat => b.2 ≤ a.2)
        (getClassDistribution detections currentFrame) ∧
    ((getClassDistribution detections currentFrame).map Prod.snd).sum
      = (currentFrameDetections detections currentFrame).length := by
  constructor
  · unfold getClassDistribution
    dsimp only
    refine List.Pairwise.imp ?_ (List.sorted_mergeSort ?_ ?_ _)
    · intro a b hab
      exact of_decide_eq_true hab
    · intro a b c h1 h2
      simp only [decide_eq_true_eq] at *
      omega
    · intro a b
      simp only [Bool.or_eq_true, decide_eq_true_eq]
      omega
  · unfold getClassDistribution
    dsimp only
    have hperm := List.mergeSort_perm
      ((currentFrameDetections detections currentFrame).foldl
        (fun acc d => addLabel acc d.label) [])
      (fun a b : String × Nat => decide (b.2 ≤ a.2))
    rw [List.Perm.sum_eq (hperm.map Prod.snd),
      sum_foldl_addLabel (currentFrameDetections detections currentFrame) []]
    simp

/-- C9: the seek directive is edge-triggered: a delivery whose `seek_to`
equals the previously seen value applies no seek (the effect does not
re-run), and in particular delivering `seek_to = 10.0` twice applies
exactly one seek. -/
theorem spec_c9 :
    (∀ (v : Option ℚ) (p : Bool) (ds : List SeekDelivery),
      appliedSeeks (some v) (⟨v, p⟩ :: ds) = appliedSeeks (some v) ds) ∧
    appliedSeeks none [⟨some 10, true⟩, ⟨some 10, true⟩] = [10] := by
  constructor
  · intro v p ds
    cases v <;> simp [appliedSeeks]
  · decide

/-- C10 counterexample: a negative `seek_to` is truthy, so the guard
applies it although it is not strictly positive. -/
theorem spec_c10_cex :
    appliedSeeks none [⟨some (-1), true⟩] = [-1] ∧ ¬ (0 < (-1 : ℚ)) := by
  constructor
  · decide
  · norm_num

/-- C10 (amended): the truthiness guard means a delivered `seek_to` is
applied to the media position only when it is nonzero (not necessarily
strictly positive) and the media element is present; `seek_to = 0` is
never applied. -/
theorem spec_c10 (prev : Option (Option ℚ)) (ds : List SeekDelivery) (v : ℚ)
    (hv : v ∈ appliedSeeks prev ds) :
    v ≠ 0 ∧ ∃ d ∈ ds, d.seek_to = some v ∧ d.videoPresent = true := by
  induction ds generalizing prev with
  | nil => simp [appliedSeeks] at hv
  | cons d ds ih =>
    obtain ⟨sv, vp⟩ := d
    rw [appliedSeeks.eq_def] at hv
    dsimp only at hv
    cases sv with
    | none =>
      simp only [] at hv
      obtain ⟨hne, d9, hmem, hprop⟩ := ih (some none) hv
      exact ⟨hne, d9, List.mem_cons_of_mem _ hmem, hprop⟩
    | some w =>
      simp only [] at hv
      split at hv
      · rename_i hc
        rcases List.mem_cons.mp hv with hv1 | hv2
        · subst hv1
          exact ⟨hc.2.1, ⟨some v, vp⟩, List.mem_cons_self _ _, rfl, hc.2.2⟩
        · obtain ⟨hne, d9, hmem, hprop⟩ := ih (some (some w)) hv2
          exact ⟨hne, d9, List.mem_cons_of_mem _ hmem, hprop⟩
      · obtain ⟨hne, d9, hmem, hprop⟩ := ih (some (some w)) hv
        exact ⟨hne, d9, List.mem_cons_of_mem _ hmem, hprop⟩

theorem spec_c10_witness :
    (10 : ℚ) ∈ appliedSeeks none [⟨some 10, true⟩] ∧
    ((10 : ℚ) ≠ 0 ∧ ∃ d ∈ ([⟨some 10, true⟩] : List SeekDelivery),
      d.seek_to = some 10 ∧ d.videoPresent = true) :=
  ⟨by decide, spec_c10 none [⟨some 10, true⟩] 10 (by decide)⟩

example : getDetectionDensity 0 [] = [] := by decide
example : (getDetectionDensity 201 []).length = 201 := by decide
example : (getDetectionDensity 1000 []).length = 200 := by decide
example : getClassDistribution [(3, [⟨0,0,0,0,"cat",1⟩, ⟨0,0,0,0,"dog",1⟩, ⟨0,0,0,0,"dog",1⟩])] 3
    = [("dog", 2), ("cat", 1)] := by
  simp [getClassDistribution, currentFrameDetections, addLabel, List.mergeSort, List.lookup]
example : getColorForLabel "" = "hsl(0, 85%, 55%)" := by decide
example : getColorForLabel "cat" = getColorForLabel "cat" := rfl
example : handleTimeUpdate (some (5/2)) 30 = [("current_timestamp", 5/2), ("current_frame", 75)] := by
  norm_num [handleTimeUpdate]
example : appliedSeeks none [⟨some 10, true⟩, ⟨some 10, true⟩] = [10] := by decide
example : appliedSeeks none [⟨some 0, true⟩] = [] := by decide
example : appliedSeeks none [⟨some (-1), true⟩] = [-1] := by decide
